import Mathlib

/-!
Shallow embedding of the kubetracer-go trace-context propagation layer
(pkg/client/tracing_client.go, pkg/predicates/ignore_trace_annotation_update.go,
and the owner-event handler), with theorems checking the specification's
claims against the embedded code.

Go strings are modelled as lists of characters, Go maps as association
lists (lookup-first semantics; well-formed Go maps have no duplicate keys,
which theorems assume via Nodup hypotheses where it matters).
-/

namespace KubetracerGo

/-- Go strings, modelled as lists of characters. -/
abbrev Str := List Char

/-- The separator used by the composite-name encoding. -/
def semi : Char := ';'

/-- Annotation key "kubetracer.io/trace-id" (constants.TraceIDAnnotation). -/
def traceIDKey : Str := "kubetracer.io/trace-id".toList

/-- Annotation key "kubetracer.io/span-id" (constants.SpanIDAnnotation). -/
def spanIDKey : Str := "kubetracer.io/span-id".toList

/-- Condition Type value "TraceID". -/
def traceIDCondType : Str := "TraceID".toList

/-- Condition Type value "SpanID". -/
def spanIDCondType : Str := "SpanID".toList

/-- Association-list lookup, first match wins (Go map read). -/
def lookupL {α : Type} : List (Str × α) → Str → Option α
  | [], _ => none
  | (k, v) :: rest, key => if k = key then some v else lookupL rest key

/-- Go map indexing `m[k]` on a string-valued map: missing keys read as "". -/
def getL (m : List (Str × Str)) (k : Str) : Str := (lookupL m k).getD []

/-- Go map write `m[k] = v`: overwrite in place, or add the entry. -/
def setL {α : Type} (m : List (Str × α)) (k : Str) (v : α) : List (Str × α) :=
  match m with
  | [] => [(k, v)]
  | (k', v') :: rest => if k' = k then (k, v) :: rest else (k', v') :: setL rest k v

/-- Go map `delete(m, k)`. -/
def delL {α : Type} : List (Str × α) → Str → List (Str × α)
  | [], _ => []
  | (k', v) :: rest, k =>
    if k' = k then delL rest k else (k', v) :: delL rest k

/-- A status condition (the fields of metav1.Condition this layer touches). -/
structure Condition where
  type : Str
  status : Str
  message : Str
deriving DecidableEq

/-- A Kubernetes object as this layer sees it: name, namespace, the
annotation map (`none` models a nil Go map, distinct from an empty one),
and the status conditions list. -/
structure KObj where
  name : Str
  ns : Str
  annotations : Option (List (Str × Str))
  conditions : List Condition
deriving DecidableEq

/-- `obj.GetAnnotations()[k]` in Go: nil-map reads give "". -/
def annGet (o : KObj) (k : Str) : Str := getL (o.annotations.getD []) k

/-- client.ObjectKey: a namespaced name. -/
structure ObjectKey where
  name : Str
  ns : Str
deriving DecidableEq

/-- Go `strings.Split(s, ";")`. -/
def splitSemi : Str → List Str
  | [] => [[]]
  | c :: rest =>
    match splitSemi rest with
    | [] => [[]]
    | f :: fs => if c = semi then [] :: f :: fs else (c :: f) :: fs

/-- The 5-field composite name `traceId;spanId;callerKind;callerName;realName`
built by fmt.Sprintf("%s;%s;%s;%s;%s", ...). -/
def compositeName (t s k n r : Str) : Str :=
  t ++ semi :: (s ++ semi :: (k ++ semi :: (n ++ semi :: r)))

/-- EmbedTraceIDInNamespacedName: reads the trace/span annotations off the
object; if either is empty the key is returned unchanged, otherwise the
key's name becomes the composite name. (`kind` is the object kind resolved
from the scheme.) -/
def embedTraceIDInNamespacedName (kind : Str) (obj : KObj) (key : ObjectKey) :
    ObjectKey :=
  let traceID := annGet obj traceIDKey
  let spanID := annGet obj spanIDKey
  if traceID = [] ∨ spanID = [] then key
  else { key with name := compositeName traceID spanID kind obj.name key.name }

/-- getCallerKindFromNamespacedName: field 2 of the 5-field split, else "". -/
def getCallerKindFromNamespacedName (key : ObjectKey) : Str :=
  let parts := splitSemi key.name
  if parts.length = 5 then parts.getD 2 [] else []

/-- getCallerNameFromNamespacedName: field 3 of the 5-field split, else "". -/
def getCallerNameFromNamespacedName (key : ObjectKey) : Str :=
  let parts := splitSemi key.name
  if parts.length = 5 then parts.getD 3 [] else []

/-- getNameFromNamespacedName: field 4 of the 5-field split, else the whole
name unchanged. -/
def getNameFromNamespacedName (key : ObjectKey) : Str :=
  let parts := splitSemi key.name
  if parts.length = 5 then parts.getD 4 [] else key.name

/-- The trace id field extracted by overrideTraceIDFromNamespacedName
(field 0 of the 5-field split), else "". -/
def getTraceIDFromNamespacedName (key : ObjectKey) : Str :=
  let parts := splitSemi key.name
  if parts.length = 5 then parts.getD 0 [] else []

/-- The span id field extracted by overrideTraceIDFromNamespacedName
(field 1 of the 5-field split), else "". -/
def getSpanIDFromNamespacedName (key : ObjectKey) : Str :=
  let parts := splitSemi key.name
  if parts.length = 5 then parts.getD 1 [] else []

/-- Whether the name decodes as a composite: exactly 5 semicolon fields. -/
def decodeOk (key : ObjectKey) : Bool :=
  (splitSemi key.name).length == 5

/-- overrideTraceIDFromNamespacedName: when the key name has exactly 5
fields, stamp fields 0 and 1 onto the object's trace/span annotations
(creating the map when nil); otherwise leave the object alone. -/
def overrideTraceIDFromNamespacedName (key : ObjectKey) (obj : KObj) : KObj :=
  let parts := splitSemi key.name
  if parts.length = 5 then
    let ann := obj.annotations.getD []
    { obj with
      annotations :=
        some (setL (setL ann traceIDKey (parts.getD 0 [])) spanIDKey
          (parts.getD 1 [])) }
  else obj

/-- The key StartTrace performs the underlying Reader.Get with:
the decoded real name, with the original namespace. -/
def startTraceReadKey (key : ObjectKey) : ObjectKey :=
  { name := getNameFromNamespacedName key, ns := key.ns }

/-- The object StartTrace holds after the Get and the override step,
given the object state `fetched` produced by the underlying read.
The span is started only afterwards, from this stamped object. -/
def startTraceStampedObj (key : ObjectKey) (fetched : KObj) : KObj :=
  overrideTraceIDFromNamespacedName key fetched

/-- getConditionMessage: the Message of the first condition with the given
Type, or `none` for the error case "condition of type %s not found". -/
def getConditionMessage (t : Str) (conds : List Condition) : Option Str :=
  (conds.find? (fun c => decide (c.type = t))).map (·.message)

/-- setConditionMessage: update the Message of the first condition with the
given Type, or append a new condition with Status Unknown when absent. -/
def setConditionMessage (t msg : Str) : List Condition → List Condition
  | [] => [{ type := t, status := "Unknown".toList, message := msg }]
  | c :: rest =>
    if c.type = t then { c with message := msg } :: rest
    else c :: setConditionMessage t msg rest

/-- One in-place removal step of the Go idiom
`append(conditions[:i], conditions[i+1:]...)` on the backing array `A`:
elements after position `i` shift left one; the last array slot keeps its
previous value. -/
def shiftRemove (A : List Condition) (i : Nat) : List Condition :=
  A.take i ++ A.drop (i + 1) ++ (match A.getLast? with
    | some l => [l]
    | none => [])

/-- The loop inside deleteCondition. State is the backing array `A`
(whose length never changes) together with the current value of the
`outConditions` slice; `i` is the loop index and `fuel` the number of
remaining iterations (initially the length of the conditions slice).
For every element whose Type differs from the target the Go code reassigns
`outConditions = append(conditions[:i], conditions[i+1:]...)`, which both
mutates the array in place and leaves `outConditions` aliasing its first
`len-1` slots. -/
def delCondLoop (t : Str) : Nat → Nat → List Condition × List Condition →
    List Condition × List Condition
  | 0, _, st => st
  | fuel + 1, i, (A, out) =>
    let c := A.getD i { type := [], status := [], message := [] }
    if c.type = t then delCondLoop t fuel (i + 1) (A, out)
    else
      let A2 := shiftRemove A i
      delCondLoop t fuel (i + 1) (A2, A2.take (A.length - 1))

/-- deleteCondition: the conditions list this function leaves on the object
(the value of `outConditions` after the loop). -/
def deleteCondition (t : Str) (conds : List Condition) : List Condition :=
  (delCondLoop t conds.length 0 (conds, [])).2

/-- The observable outcome of one EndTrace call. `mergePatch` is the
annotation map submitted in the merge patch (`none` when no patch was
issued); `statusPatch` is the conditions list submitted in the
status-subresource patch. -/
structure EndTraceOutcome where
  retObj : KObj
  retErrSome : Bool
  didRead : Bool
  mergePatch : Option (List (Str × Str))
  statusPatch : Option (List Condition)
deriving DecidableEq

/-- EndTrace. `spanTid`/`spanSid` are the hex strings of the span active
inside the tracingStatusClient.Patch wrapper that Status().Patch goes
through (that wrapper stamps them back as TraceID/SpanID conditions).
`stored` is what the optimistic Reader.Get read returns; `none` models a
failed read, in which case the freshly DeepCopied `obj` keeps obj's own
annotations and the comparison proceeds against those. Underlying patch
calls are modelled as succeeding. -/
def endTrace (spanTid spanSid : Str) (stored : Option KObj) (obj : KObj) :
    EndTraceOutcome :=
  match obj.annotations with
  | none => { retObj := obj, retErrSome := false, didRead := false,
              mergePatch := none, statusPatch := none }
  | some ann =>
    let current := stored.getD obj
    if annGet current traceIDKey ≠ annGet obj traceIDKey then
      { retObj := obj, retErrSome := false, didRead := true,
        mergePatch := none, statusPatch := none }
    else
      let ann2 := delL (delL ann traceIDKey) spanIDKey
      let obj2 := { obj with annotations := some ann2 }
      let conds2 := deleteCondition spanIDCondType
        (deleteCondition traceIDCondType obj2.conditions)
      let conds3 := setConditionMessage spanIDCondType spanSid
        (setConditionMessage traceIDCondType spanTid conds2)
      let obj3 := { obj2 with conditions := conds3 }
      { retObj := obj3, retErrSome := false, didRead := true,
        mergePatch := some ann2, statusPatch := some conds3 }

/-- Lowercase hex check used by the otel TraceIDFromHex/SpanIDFromHex
parsers. -/
def isHexLower (c : Char) : Bool := c.isDigit || ('a' ≤ c && c ≤ 'f')

/-- trace.TraceIDFromHex succeeds iff 32 lowercase hex chars, not all 0. -/
def isValidTraceIDHex (s : Str) : Bool :=
  s.length == 32 && s.all isHexLower && !(s.all (· = '0'))

/-- trace.SpanIDFromHex succeeds iff 16 lowercase hex chars, not all 0. -/
def isValidSpanIDHex (s : Str) : Bool :=
  s.length == 16 && s.all isHexLower && !(s.all (· = '0'))

/-- Which branch of startSpanFromContext established the parent context of
the span about to be started. -/
inductive ParentSource where
  | ambient
  | conditions
  | annotations
  | root
deriving DecidableEq

/-- The SpanContextConfig handed to ContextWithRemoteSpanContext: which of
the TraceID/SpanID fields were populated. -/
structure RemoteCfg where
  traceID : Option Str
  spanID : Option Str
deriving DecidableEq

/-- startSpanFromContext, reduced to its branching decision: given the
ambient span context (`some (tid, sid)` when valid) and the optional
object, which source supplies the remote parent and with which config.
`(.root, none)` means no remote parent context is installed and
tracer.Start mints a fresh root span. Mirrors the source's nesting: the
annotation branch is the `else` of the condition-message lookup, and a
TraceIDFromHex failure inside either branch installs nothing. -/
def startSpanParent (ambient : Option (Str × Str)) (obj : Option KObj) :
    ParentSource × Option RemoteCfg :=
  match ambient with
  | some (tid, sid) => (.ambient, some { traceID := some tid, spanID := some sid })
  | none =>
    match obj with
    | none => (.root, none)
    | some o =>
      match getConditionMessage traceIDCondType o.conditions with
      | some tid =>
        if isValidTraceIDHex tid then
          let cfg :=
            match getConditionMessage spanIDCondType o.conditions with
            | some sid =>
              if isValidSpanIDHex sid then
                { traceID := some tid, spanID := some sid }
              else { traceID := some tid, spanID := none }
            | none => { traceID := none, spanID := none }
          (.conditions, some cfg)
        else (.root, none)
      | none =>
        match lookupL (o.annotations.getD []) traceIDKey with
        | some tid =>
          if isValidTraceIDHex tid then
            let cfg :=
              match lookupL (o.annotations.getD []) spanIDKey with
              | some sid =>
                if isValidSpanIDHex sid then
                  { traceID := some tid, spanID := some sid }
                else { traceID := some tid, spanID := none }
              | none => { traceID := none, spanID := none }
            (.annotations, some cfg)
          else (.root, none)
        | none => (.root, none)

/-- addTraceIDAnnotation: stamp the span's trace id then span id onto the
object's annotations, each guarded by the rendered id being non-empty,
creating the map when nil. -/
def addTraceIDAnnot (spanTid spanSid : Str) (obj : KObj) : KObj :=
  let obj1 :=
    if spanTid ≠ [] then
      { obj with annotations := some (setL (obj.annotations.getD []) traceIDKey spanTid) }
    else obj
  if spanSid ≠ [] then
    { obj1 with annotations := some (setL (obj1.annotations.getD []) spanIDKey spanSid) }
  else obj1

/-- The object state Create hands to the underlying store call. -/
def createSentObj (spanTid spanSid : Str) (obj : KObj) : KObj :=
  addTraceIDAnnot spanTid spanSid obj

/-- The object state Update hands to the underlying store call. -/
def updateSentObj (spanTid spanSid : Str) (obj : KObj) : KObj :=
  addTraceIDAnnot spanTid spanSid obj

/-- The object state Patch hands to the underlying store call. -/
def patchSentObj (spanTid spanSid : Str) (obj : KObj) : KObj :=
  addTraceIDAnnot spanTid spanSid obj

/-- The error-flow outcome of one interceptor verb: the error returned to
the caller and the errors recorded on the span. -/
structure VerbOutcome where
  ret : Option Str
  recorded : List Str
deriving DecidableEq

/-- The "problem getting the scheme: %w" wrapping applied to GVK errors. -/
def schemeWrap (e : Str) : Str := "problem getting the scheme: ".toList ++ e

/-- Error flow shared by Create, Update, Patch, Get, Delete, DeleteAllOf
and the status Update/Patch/Create: a scheme-resolution failure returns
wrapped before any store call; otherwise the store error (if any) is
recorded on the span and returned unchanged. -/
def plainVerb (schemeErr storeErr : Option Str) : VerbOutcome :=
  match schemeErr with
  | some e => { ret := some (schemeWrap e), recorded := [] }
  | none => { ret := storeErr, recorded := storeErr.toList }

/-- Error flow of List: the GVK error is discarded (`gvk, _ := ...`), the
store error is recorded and returned. -/
def listVerb (storeErr : Option Str) : VerbOutcome :=
  { ret := storeErr, recorded := storeErr.toList }

/-- Error flow of StartTrace: the underlying Reader.Get error is discarded
(`_ = tc.Reader.Get(...)`); only the GVK resolution error is recorded on
the span and returned (unwrapped). -/
def startTraceVerb (schemeErr _storeErr : Option Str) : VerbOutcome :=
  match schemeErr with
  | some e => { ret := some e, recorded := [e] }
  | none => { ret := none, recorded := [] }

/-- The re-enqueue record built by getOwnerReconcileRequest for one
matching owner reference. -/
structure OwnerRequest where
  name : Str
  ns : Str
  traceID : Str
  spanID : Str
  senderName : Str
  senderKind : Str
  eventKind : Str
deriving DecidableEq

/-- getOwnerReconcileRequest, for one owner reference that matched the
configured group/kind: target name from the reference, namespace from the
child when the owner is namespaced, and the child's trace/span annotations
copied in only when both are non-empty. -/
def buildOwnerRequest (child : KObj) (childKind : Str) (refName : Str)
    (nsScoped : Bool) (eventKind : Str) : OwnerRequest :=
  let traceId := annGet child traceIDKey
  let spanId := annGet child spanIDKey
  { name := refName
    ns := if nsScoped then child.ns else []
    traceID := if traceId ≠ [] ∧ spanId ≠ [] then traceId else []
    spanID := if traceId ≠ [] ∧ spanId ≠ [] then spanId else []
    senderName := child.name
    senderKind := childKind
    eventKind := eventKind }

/-- requestWithTraceIDToRequest, for one record: the enqueued key uses the
composite name when the record carries both ids, else the plain name. -/
def requestToKey (req : OwnerRequest) : ObjectKey :=
  if req.traceID ≠ [] ∧ req.spanID ≠ [] then
    { name := compositeName req.traceID req.spanID req.senderKind
        req.senderName req.name,
      ns := req.ns }
  else { name := req.name, ns := req.ns }

/-- An unstructured Kubernetes value (the interface{} tree produced by
runtime.DefaultUnstructuredConverter.ToUnstructured). -/
inductive UVal where
  | null
  | str (s : Str)
  | num (n : Int)
  | boolean (b : Bool)
  | arr (xs : List UVal)
  | map (fields : List (Str × UVal))

mutual
/-- Decidable structural equality on unstructured values
(reflect.DeepEqual on the model; map entries are compared in order, see
the module comment). -/
def UVal.decEq : (a b : UVal) → Decidable (a = b)
  | .null, .null => isTrue rfl
  | .str a, .str b =>
    if h : a = b then isTrue (by rw [h]) else isFalse (fun hh => h (by injection hh))
  | .num a, .num b =>
    if h : a = b then isTrue (by rw [h]) else isFalse (fun hh => h (by injection hh))
  | .boolean a, .boolean b =>
    if h : a = b then isTrue (by rw [h]) else isFalse (fun hh => h (by injection hh))
  | .arr xs, .arr ys =>
    match UVal.decEqArr xs ys with
    | isTrue h => isTrue (by rw [h])
    | isFalse h => isFalse (fun hh => h (by injection hh))
  | .map xs, .map ys =>
    match UVal.decEqMap xs ys with
    | isTrue h => isTrue (by rw [h])
    | isFalse h => isFalse (fun hh => h (by injection hh))
  | .null, .str _ => isFalse (fun h => UVal.noConfusion h)
  | .null, .num _ => isFalse (fun h => UVal.noConfusion h)
  | .null, .boolean _ => isFalse (fun h => UVal.noConfusion h)
  | .null, .arr _ => isFalse (fun h => UVal.noConfusion h)
  | .null, .map _ => isFalse (fun h => UVal.noConfusion h)
  | .str _, .null => isFalse (fun h => UVal.noConfusion h)
  | .str _, .num _ => isFalse (fun h => UVal.noConfusion h)
  | .str _, .boolean _ => isFalse (fun h => UVal.noConfusion h)
  | .str _, .arr _ => isFalse (fun h => UVal.noConfusion h)
  | .str _, .map _ => isFalse (fun h => UVal.noConfusion h)
  | .num _, .null => isFalse (fun h => UVal.noConfusion h)
  | .num _, .str _ => isFalse (fun h => UVal.noConfusion h)
  | .num _, .boolean _ => isFalse (fun h => UVal.noConfusion h)
  | .num _, .arr _ => isFalse (fun h => UVal.noConfusion h)
  | .num _, .map _ => isFalse (fun h => UVal.noConfusion h)
  | .boolean _, .null => isFalse (fun h => UVal.noConfusion h)
  | .boolean _, .str _ => isFalse (fun h => UVal.noConfusion h)
  | .boolean _, .num _ => isFalse (fun h => UVal.noConfusion h)
  | .boolean _, .arr _ => isFalse (fun h => UVal.noConfusion h)
  | .boolean _, .map _ => isFalse (fun h => UVal.noConfusion h)
  | .arr _, .null => isFalse (fun h => UVal.noConfusion h)
  | .arr _, .str _ => isFalse (fun h => UVal.noConfusion h)
  | .arr _, .num _ => isFalse (fun h => UVal.noConfusion h)
  | .arr _, .boolean _ => isFalse (fun h => UVal.noConfusion h)
  | .arr _, .map _ => isFalse (fun h => UVal.noConfusion h)
  | .map _, .null => isFalse (fun h => UVal.noConfusion h)
  | .map _, .str _ => isFalse (fun h => UVal.noConfusion h)
  | .map _, .num _ => isFalse (fun h => UVal.noConfusion h)
  | .map _, .boolean _ => isFalse (fun h => UVal.noConfusion h)
  | .map _, .arr _ => isFalse (fun h => UVal.noConfusion h)

def UVal.decEqArr : (xs ys : List UVal) → Decidable (xs = ys)
  | [], [] => isTrue rfl
  | x :: xs, y :: ys =>
    match UVal.decEq x y, UVal.decEqArr xs ys with
    | isTrue h1, isTrue h2 => isTrue (by rw [h1, h2])
    | isFalse h1, _ => isFalse (fun hh => h1 (by injection hh))
    | _, isFalse h2 => isFalse (fun hh => h2 (by injection hh))
  | [], _ :: _ => isFalse (fun h => List.noConfusion h)
  | _ :: _, [] => isFalse (fun h => List.noConfusion h)

def UVal.decEqMap : (xs ys : List (Str × UVal)) → Decidable (xs = ys)
  | [], [] => isTrue rfl
  | (k, v) :: xs, (k', v') :: ys =>
    if hk : k = k' then
      match UVal.decEq v v', UVal.decEqMap xs ys with
      | isTrue h1, isTrue h2 => isTrue (by rw [hk, h1, h2])
      | isFalse h1, _ => isFalse (fun hh => by
          injection hh with hp ht
          exact h1 (congrArg Prod.snd hp))
      | _, isFalse h2 => isFalse (fun hh => by
          injection hh with hp ht
          exact h2 ht)
    else isFalse (fun hh => by
      injection hh with hp ht
      exact hk (congrArg Prod.fst hp))
  | [], _ :: _ => isFalse (fun h => List.noConfusion h)
  | _ :: _, [] => isFalse (fun h => List.noConfusion h)
end

instance : DecidableEq UVal := UVal.decEq

mutual
/-- replaceEmptyStructsAndSlicesWithNil applied to a map: every value is
rewritten in place. -/
def replMap : List (Str × UVal) → List (Str × UVal)
  | [] => []
  | (k, v) :: rest => (k, replVal v) :: replMap rest

/-- The value rewrite of replaceEmptyStructsAndSlicesWithNil: an empty map
or slice becomes nil; a non-empty map is normalized recursively; in a
non-empty slice only map elements are normalized recursively, and the
whole slice becomes nil when every element is a map that is empty after
normalization. -/
def replVal : UVal → UVal
  | .map fields =>
    match fields with
    | [] => .null
    | f :: fs => .map (replMap (f :: fs))
  | .arr xs =>
    match xs with
    | [] => .null
    | x :: rest =>
      let xs2 := replArr (x :: rest)
      if xs2.all (fun e => match e with
        | .map f => f.isEmpty
        | _ => false) then .null
      else .arr xs2
  | v => v

/-- Element pass over a slice: recurse into map elements only. -/
def replArr : List UVal → List UVal
  | [] => []
  | .map fields :: rest => .map (replMap fields) :: replArr rest
  | x :: rest => x :: replArr rest
end

/-- removeTraceAndSpanConditions: when the status map holds a "conditions"
slice, keep only map-shaped entries whose "type" string is neither
"TraceID" nor "SpanID" (non-map entries are dropped, and a missing or
non-string "type" reads as ""), writing the filtered slice back. Any
other shape of "conditions" leaves the map untouched. -/
def removeTraceAndSpanConditionsU (statusFields : List (Str × UVal)) :
    List (Str × UVal) :=
  match lookupL statusFields "conditions".toList with
  | some (.arr conds) =>
    let filtered := conds.filterMap (fun c =>
      match c with
      | .map cf =>
        let t := match lookupL cf "type".toList with
          | some (.str ty) => ty
          | _ => ([] : Str)
        if t = traceIDCondType ∨ t = spanIDCondType then none else some c
      | _ => none)
    setL statusFields "conditions".toList (.arr filtered)
  | _ => statusFields

/-- An object as the predicate sees it: annotation map, resource version,
generation, and the unstructured spec/status sub-trees (absent field
modelled as `none`). -/
structure PObj where
  annotations : List (Str × Str)
  resourceVersion : Str
  generation : Int
  spec : Option UVal
  status : Option UVal
deriving DecidableEq

/-- The normalized spec field compared by hasFieldChanged: the "spec" key
survives normalization (possibly with value nil), so present-but-empty and
absent remain distinguishable. -/
def normSpecField (o : PObj) : Option UVal := o.spec.map replVal

/-- getFieldExcludingObservedGeneration on the normalized status: an absent
status reads as nil (conflated with a status normalized to nil); a
map-shaped status drops "observedGeneration" and the TraceID/SpanID
condition entries; any other shape is returned as-is. -/
def statusView (o : PObj) : UVal :=
  match o.status with
  | none => .null
  | some s =>
    match replVal s with
    | .map fields =>
      .map (removeTraceAndSpanConditionsU (delL fields "observedGeneration".toList))
    | v => v

/-- hasSpecOrStatusChanged: the normalized spec field differs (including
found/not-found disagreement) or the normalized status views differ. -/
def hasSpecOrStatusChanged (a b : PObj) : Bool :=
  decide (normSpecField a ≠ normSpecField b) || decide (statusView a ≠ statusView b)

/-- equalExcept: both Go loops over the two annotation maps, ignoring the
listed keys. -/
def equalExcept (a b : List (Str × Str)) (ignored : List Str) : Bool :=
  a.all (fun p =>
    decide (p.1 ∈ ignored) ||
      match lookupL b p.1 with
      | some bv => decide (bv = p.2)
      | none => false) &&
  b.all (fun p => (lookupL a p.1).isSome || decide (p.1 ∈ ignored))

/-- IgnoreTraceAnnotationUpdatePredicate.Update for a pair of present
objects: suppress (false) exactly when at least one of the trace/span
annotations, the resource version or the generation changed while no other
annotation changed and hasSpecOrStatusChanged is false. -/
def predUpdate (a b : PObj) : Bool :=
  let traceIDChanged := decide (getL a.annotations traceIDKey ≠ getL b.annotations traceIDKey)
  let spanIDChanged := decide (getL a.annotations spanIDKey ≠ getL b.annotations spanIDKey)
  let generationChanged := decide (a.generation ≠ b.generation)
  let versionChanged := decide (a.resourceVersion ≠ b.resourceVersion)
  let otherAnnotationsChanged := !equalExcept a.annotations b.annotations [traceIDKey, spanIDKey]
  let specOrStatusChanged := hasSpecOrStatusChanged a b
  if (traceIDChanged || spanIDChanged || versionChanged || generationChanged)
      && !otherAnnotationsChanged && !specOrStatusChanged then false
  else true

/-- IgnoreTraceAnnotationUpdatePredicate.Update including the nil guards:
an event missing either side is always forwarded. -/
def predUpdateEvent (a b : Option PObj) : Bool :=
  match a, b with
  | some x, some y => predUpdate x y
  | _, _ => true

/-- The claim's forwarding condition, stated from its words: an annotation
other than the trace-id and span-id keys changed, or the spec changed, or
the status changed after the normalizations. -/
def claimShouldForward (a b : PObj) : Prop :=
  (∃ k, k ≠ traceIDKey ∧ k ≠ spanIDKey ∧
    lookupL a.annotations k ≠ lookupL b.annotations k)
  ∨ normSpecField a ≠ normSpecField b
  ∨ statusView a ≠ statusView b

/-- Modelled from the amended claim's words, for comparison with the
source-derived `startSpanParent`: a valid ambient span wins; otherwise a
readable condition-form trace id is used when it parses and otherwise
falls directly to a fresh root (skipping the annotation form); the
annotation form is consulted only when no condition-form trace id is
readable, and a malformed annotation id also falls to a fresh root. -/
def parentSourceSpec (ambient : Option (Str × Str)) (obj : Option KObj) :
    ParentSource :=
  match ambient, obj with
  | some _, _ => .ambient
  | none, none => .root
  | none, some o =>
    match getConditionMessage traceIDCondType o.conditions with
    | some tid => if isValidTraceIDHex tid then .conditions else .root
    | none =>
      match lookupL (o.annotations.getD []) traceIDKey with
      | some tid => if isValidTraceIDHex tid then .annotations else .root
      | none => .root

/-- Error flow of the Create verb. -/
def createVerb (schemeErr storeErr : Option Str) : VerbOutcome :=
  plainVerb schemeErr storeErr

/-- Error flow of the Update verb. -/
def updateVerb (schemeErr storeErr : Option Str) : VerbOutcome :=
  plainVerb schemeErr storeErr

/-- Error flow of the Patch verb. -/
def patchVerb (schemeErr storeErr : Option Str) : VerbOutcome :=
  plainVerb schemeErr storeErr

/-- Error flow of the Get verb. -/
def getVerb (schemeErr storeErr : Option Str) : VerbOutcome :=
  plainVerb schemeErr storeErr

/-- Error flow of the Delete verb. -/
def deleteVerb (schemeErr storeErr : Option Str) : VerbOutcome :=
  plainVerb schemeErr storeErr

/-- Error flow of the DeleteAllOf verb. -/
def deleteAllOfVerb (schemeErr storeErr : Option Str) : VerbOutcome :=
  plainVerb schemeErr storeErr

/-- Error flow of the status sub-resource Update verb. -/
def statusUpdateVerb (schemeErr storeErr : Option Str) : VerbOutcome :=
  plainVerb schemeErr storeErr

/-- Error flow of the status sub-resource Patch verb. -/
def statusPatchVerb (schemeErr storeErr : Option Str) : VerbOutcome :=
  plainVerb schemeErr storeErr

/-- Error flow of the status sub-resource Create verb. -/
def statusCreateVerb (schemeErr storeErr : Option Str) : VerbOutcome :=
  plainVerb schemeErr storeErr

/-- A Ready condition used in concrete instances. -/
def readyCond : Condition :=
  { type := "Ready".toList, status := "True".toList, message := "ok".toList }

/-- A marker condition of Type TraceID. -/
def traceCond : Condition :=
  { type := traceIDCondType, status := "Unknown".toList, message := "aaaa".toList }

/-- A marker condition of Type SpanID. -/
def spanCond : Condition :=
  { type := spanIDCondType, status := "Unknown".toList, message := "bbbb".toList }

/-- A valid 32-char lowercase trace id. -/
def hex32 : Str := "0123456789abcdef0123456789abcdef".toList

/-- A valid 16-char lowercase span id. -/
def hex16 : Str := "0123456789abcdef".toList

/-- Concrete object for the identical-update counterexample: annotations
with a trace marker and one ordinary key, a spec, and a status with an
observedGeneration and a Ready condition. -/
def c2ex : PObj :=
  { annotations := [(traceIDKey, "t1".toList), ("x".toList, "1".toList)]
    resourceVersion := "100".toList
    generation := 2
    spec := some (.map [("replicas".toList, .num 1)])
    status := some (.map
      [("observedGeneration".toList, .num 2),
       ("conditions".toList, .arr
         [.map [("type".toList, .str "Ready".toList),
                ("status".toList, .str "True".toList)]])]) }

/-- Concrete object whose trace/span annotations are set, used by the
composite-name counterexample. -/
def c3obj : KObj :=
  { name := "pod1".toList, ns := "default".toList,
    annotations := some [(traceIDKey, "t1".toList), (spanIDKey, "s1".toList)],
    conditions := [] }

/-- A base key whose name itself contains the separator. -/
def c3key : ObjectKey := { name := "a;b;c;d;e".toList, ns := "default".toList }

/-- Object carrying a malformed condition-form trace id and a valid
annotation-form trace id. -/
def c4obj : KObj :=
  { name := "pod".toList, ns := "ns".toList,
    annotations := some [(traceIDKey, hex32), (spanIDKey, hex16)],
    conditions := [{ type := traceIDCondType, status := "Unknown".toList,
                     message := "ZZZ".toList }] }

/-- Object whose conditions hold a Ready entry besides the two marker
entries, with annotation markers matching the stored object. -/
def c6obj : KObj :=
  { name := "pod".toList, ns := "ns".toList,
    annotations := some [(traceIDKey, "t1".toList), (spanIDKey, "s1".toList)],
    conditions := [readyCond, traceCond, spanCond] }

/-- Object with a non-nil annotation map that carries no trace markers. -/
def c8obj : KObj :=
  { name := "pod".toList, ns := "ns".toList,
    annotations := some [("foo".toList, "bar".toList)],
    conditions := [] }

/-- Stored/in-memory pair for the changed-trace-id witness. -/
def c1stored : KObj :=
  { name := "pod".toList, ns := "ns".toList,
    annotations := some [(traceIDKey, "newer".toList)], conditions := [] }

/-- In-memory object whose trace id differs from `c1stored`. -/
def c1obj : KObj :=
  { name := "pod".toList, ns := "ns".toList,
    annotations := some [(traceIDKey, "older".toList), (spanIDKey, "s1".toList)],
    conditions := [readyCond] }

/-- The composite key of the spec's end-to-end scenario. -/
def c5key : ObjectKey :=
  { name := "T1;S1;Pod;pod-A;cm-1".toList, ns := "default".toList }

/-- A fetched object that already carries older persisted trace markers. -/
def c5fetched : KObj :=
  { name := "cm-1".toList, ns := "default".toList,
    annotations := some [(traceIDKey, "OLD".toList), (spanIDKey, "OLDSPAN".toList),
                         ("keep".toList, "me".toList)],
    conditions := [] }

/-- An object with ordinary annotations next to the reserved keys. -/
def c10obj : KObj :=
  { name := "pod".toList, ns := "ns".toList,
    annotations := some [("app".toList, "web".toList), (traceIDKey, "old".toList)],
    conditions := [] }

/-- A plain base key without separators. -/
def c3base : ObjectKey := { name := "cm-1".toList, ns := "default".toList }

/-- Variant of `c2ex` differing only in the trace-id annotation value and
the resource version. -/
def c2ex2 : PObj :=
  { c2ex with
    annotations := [(traceIDKey, "t2".toList), ("x".toList, "1".toList)]
    resourceVersion := "101".toList }

theorem splitSemi_ne_nil (s : Str) : splitSemi s ≠ [] := by
  cases s with
  | nil => simp [splitSemi]
  | cons c rest =>
    simp only [splitSemi]
    split
    · simp
    · split <;> simp

theorem splitSemi_no_semi : ∀ s : Str, semi ∉ s → splitSemi s = [s]
  | [], _ => rfl
  | c :: rest, h => by
    have hc : ¬(c = semi) := fun hc => h (hc ▸ List.mem_cons_self c rest)
    have ih := splitSemi_no_semi rest (fun hm => h (List.mem_cons_of_mem c hm))
    simp only [splitSemi, ih]
    simp [hc]

theorem splitSemi_append : ∀ a b : Str, semi ∉ a →
    splitSemi (a ++ semi :: b) = a :: splitSemi b
  | [], b, _ => by
    simp only [List.nil_append, splitSemi]
    cases h : splitSemi b with
    | nil => exact absurd h (splitSemi_ne_nil b)
    | cons f fs => simp
  | c :: a, b, h => by
    have hc : ¬(c = semi) := fun hc => h (hc ▸ List.mem_cons_self c a)
    have ih := splitSemi_append a b (fun hm => h (List.mem_cons_of_mem c hm))
    simp only [List.cons_append, splitSemi, List.append_eq]
    rw [ih]
    simp [hc]

theorem splitSemi_composite (t s k n r : Str)
    (ht : semi ∉ t) (hs : semi ∉ s) (hk : semi ∉ k) (hn : semi ∉ n)
    (hr : semi ∉ r) :
    splitSemi (compositeName t s k n r) = [t, s, k, n, r] := by
  unfold compositeName
  rw [splitSemi_append t _ ht, splitSemi_append s _ hs, splitSemi_append k _ hk,
    splitSemi_append n _ hn, splitSemi_no_semi r hr]

theorem lookupL_setL_self {α : Type} (m : List (Str × α)) (k : Str) (v : α) :
    lookupL (setL m k v) k = some v := by
  induction m with
  | nil => simp [setL, lookupL]
  | cons p rest ih =>
    obtain ⟨k', v'⟩ := p
    simp only [setL]
    by_cases h : k' = k
    · simp [h, lookupL]
    · simp [lookupL, h, ih]

theorem lookupL_setL_ne {α : Type} (m : List (Str × α)) (k k' : Str) (v : α)
    (h : k' ≠ k) : lookupL (setL m k v) k' = lookupL m k' := by
  induction m with
  | nil => simp [setL, lookupL, h.symm]
  | cons p rest ih =>
    obtain ⟨k2, v2⟩ := p
    by_cases h2 : k2 = k
    · subst h2
      simp [setL, lookupL, h.symm]
    · by_cases h3 : k2 = k'
      · simp [setL, h2, h3, h, lookupL]
      · simp [setL, h2, h3, lookupL, ih]

theorem lookupL_delL_self {α : Type} (m : List (Str × α)) (k : Str) :
    lookupL (delL m k) k = none := by
  induction m with
  | nil => rfl
  | cons p rest ih =>
    obtain ⟨k2, v2⟩ := p
    by_cases h2 : k2 = k <;> simp [delL, h2, lookupL, ih]

theorem lookupL_delL_ne {α : Type} (m : List (Str × α)) (k k' : Str)
    (h : k' ≠ k) : lookupL (delL m k) k' = lookupL m k' := by
  induction m with
  | nil => rfl
  | cons p rest ih =>
    obtain ⟨k2, v2⟩ := p
    by_cases h2 : k2 = k
    · subst h2
      simp [delL, lookupL, h.symm, ih]
    · by_cases h3 : k2 = k'
      · simp [delL, h2, h3, h, lookupL]
      · simp [delL, h2, h3, lookupL, ih]

theorem mem_of_lookupL {α : Type} (m : List (Str × α)) (k : Str) (v : α)
    (h : lookupL m k = some v) : (k, v) ∈ m := by
  induction m with
  | nil => simp [lookupL] at h
  | cons p rest ih =>
    obtain ⟨k2, v2⟩ := p
    simp only [lookupL] at h
    by_cases h2 : k2 = k
    · rw [if_pos h2] at h
      injection h with h
      simp [h2, h]
    · rw [if_neg h2] at h
      exact List.mem_cons_of_mem _ (ih h)

theorem lookupL_of_mem {α : Type} (m : List (Str × α)) (k : Str) (v : α)
    (nd : (m.map Prod.fst).Nodup) (h : (k, v) ∈ m) : lookupL m k = some v := by
  induction m with
  | nil => simp at h
  | cons p rest ih =>
    obtain ⟨k2, v2⟩ := p
    simp only [List.map_cons, List.nodup_cons] at nd
    rcases List.mem_cons.mp h with h1 | h1
    · injection h1 with e1 e2
      simp [lookupL, e1.symm, e2]
    · have hk : k2 ≠ k := by
        intro e
        exact nd.1 (e ▸ (List.mem_map.mpr ⟨(k, v), h1, rfl⟩))
      simp [lookupL, hk, ih nd.2 h1]

theorem lookupL_isSome_iff {α : Type} (m : List (Str × α)) (k : Str) :
    (lookupL m k).isSome = true ↔ ∃ v, (k, v) ∈ m := by
  constructor
  · intro h
    obtain ⟨v, hv⟩ := Option.isSome_iff_exists.mp h
    exact ⟨v, mem_of_lookupL m k v hv⟩
  · rintro ⟨v, hv⟩
    induction m with
    | nil => simp at hv
    | cons p rest ih =>
      obtain ⟨k2, v2⟩ := p
      simp only [lookupL]
      by_cases h2 : k2 = k
      · simp [h2]
      · rcases List.mem_cons.mp hv with h1 | h1
        · injection h1 with e1 _
          exact absurd e1.symm h2
        · simp [h2, ih h1]

theorem equalExcept_iff (a b : List (Str × Str)) (ig : List Str)
    (nda : (a.map Prod.fst).Nodup) (ndb : (b.map Prod.fst).Nodup) :
    equalExcept a b ig = true ↔ ∀ k, k ∉ ig → lookupL a k = lookupL b k := by
  unfold equalExcept
  rw [Bool.and_eq_true, List.all_eq_true, List.all_eq_true]
  constructor
  · rintro ⟨h1, h2⟩ k hk
    cases ha : lookupL a k with
    | some v =>
      have hmem := mem_of_lookupL a k v ha
      have := h1 (k, v) hmem
      simp only [Bool.or_eq_true, decide_eq_true_eq] at this
      rcases this with hig | hmatch
      · exact absurd hig hk
      · cases hb : lookupL b k with
        | none => rw [hb] at hmatch; simp at hmatch
        | some w =>
          rw [hb] at hmatch
          simp only [decide_eq_true_eq] at hmatch
          rw [hmatch]
    | none =>
      cases hb : lookupL b k with
      | none => rfl
      | some w =>
        have hmem := mem_of_lookupL b k w hb
        have := h2 (k, w) hmem
        simp only [Bool.or_eq_true, decide_eq_true_eq] at this
        rcases this with hs | hig
        · rw [ha] at hs; simp at hs
        · exact absurd hig hk
  · intro h
    constructor
    · intro p hp
      simp only [Bool.or_eq_true, decide_eq_true_eq]
      by_cases hig : p.1 ∈ ig
      · exact Or.inl hig
      · refine Or.inr ?_
        have hla : lookupL a p.1 = some p.2 := by
          obtain ⟨k, v⟩ := p
          exact lookupL_of_mem a k v nda hp
        rw [← h p.1 hig, hla]
        simp
    · intro p hp
      simp only [Bool.or_eq_true, decide_eq_true_eq]
      by_cases hig : p.1 ∈ ig
      · exact Or.inr hig
      · refine Or.inl ?_
        have hlb : lookupL b p.1 = some p.2 := by
          obtain ⟨k, v⟩ := p
          exact lookupL_of_mem b k v ndb hp
        rw [h p.1 hig, hlb]
        simp

/-- C3 (amended): decoding the composite key produced by encode recovers
the base key name, the trace id, the span id, the caller kind and the
caller name with ok = true, for every trace context with non-empty trace
and span ids, provided none of the five encoded fields itself contains the
separator ';'; and decoding a key name that contains no ';' returns that
name unchanged with ok = false. -/
theorem decode_encode_roundtrip_amended (kind : Str) (obj : KObj)
    (key : ObjectKey)
    (ht : annGet obj traceIDKey ≠ []) (hs : annGet obj spanIDKey ≠ [])
    (h1 : semi ∉ annGet obj traceIDKey) (h2 : semi ∉ annGet obj spanIDKey)
    (h3 : semi ∉ kind) (h4 : semi ∉ obj.name) (h5 : semi ∉ key.name) :
    (getNameFromNamespacedName (embedTraceIDInNamespacedName kind obj key)
        = key.name ∧
      getTraceIDFromNamespacedName (embedTraceIDInNamespacedName kind obj key)
        = annGet obj traceIDKey ∧
      getSpanIDFromNamespacedName (embedTraceIDInNamespacedName kind obj key)
        = annGet obj spanIDKey ∧
      getCallerKindFromNamespacedName (embedTraceIDInNamespacedName kind obj key)
        = kind ∧
      getCallerNameFromNamespacedName (embedTraceIDInNamespacedName kind obj key)
        = obj.name ∧
      decodeOk (embedTraceIDInNamespacedName kind obj key) = true) ∧
    (∀ p : ObjectKey, semi ∉ p.name →
      getNameFromNamespacedName p = p.name ∧ decodeOk p = false) := by
  have hkey : embedTraceIDInNamespacedName kind obj key =
      { key with name := (compositeName (annGet obj traceIDKey)
                  (annGet obj spanIDKey) kind obj.name key.name) } := by
    simp [embedTraceIDInNamespacedName, ht, hs]
  have hsplit : splitSemi (embedTraceIDInNamespacedName kind obj key).name
      = [annGet obj traceIDKey, annGet obj spanIDKey, kind, obj.name,
         key.name] := by
    rw [hkey]
    exact splitSemi_composite _ _ _ _ _ h1 h2 h3 h4 h5
  constructor
  · refine ⟨?_, ?_, ?_, ?_, ?_, ?_⟩ <;>
      simp [getNameFromNamespacedName, getTraceIDFromNamespacedName,
        getSpanIDFromNamespacedName, getCallerKindFromNamespacedName,
        getCallerNameFromNamespacedName, decodeOk, hsplit]
  · intro p hp
    have hsp := splitSemi_no_semi p.name hp
    exact ⟨by simp [getNameFromNamespacedName, hsp],
      by simp [decodeOk, hsp]⟩

/-- Witness for decode_encode_roundtrip_amended at the concrete object
`c3obj`, kind Pod and base key `cm-1`. -/
theorem decode_encode_roundtrip_amended_witness :
    (annGet c3obj traceIDKey ≠ [] ∧ annGet c3obj spanIDKey ≠ [] ∧
      semi ∉ c3base.name) ∧
    ((getNameFromNamespacedName
        (embedTraceIDInNamespacedName "Pod".toList c3obj c3base)
        = c3base.name ∧
      getTraceIDFromNamespacedName
        (embedTraceIDInNamespacedName "Pod".toList c3obj c3base)
        = annGet c3obj traceIDKey ∧
      getSpanIDFromNamespacedName
        (embedTraceIDInNamespacedName "Pod".toList c3obj c3base)
        = annGet c3obj spanIDKey ∧
      getCallerKindFromNamespacedName
        (embedTraceIDInNamespacedName "Pod".toList c3obj c3base)
        = "Pod".toList ∧
      getCallerNameFromNamespacedName
        (embedTraceIDInNamespacedName "Pod".toList c3obj c3base)
        = c3obj.name ∧
      decodeOk (embedTraceIDInNamespacedName "Pod".toList c3obj c3base)
        = true) ∧
    (∀ p : ObjectKey, semi ∉ p.name →
      getNameFromNamespacedName p = p.name ∧ decodeOk p = false)) :=
  ⟨⟨by decide, by decide, by decide⟩,
    decode_encode_roundtrip_amended "Pod".toList c3obj c3base (by decide)
      (by decide) (by decide) (by decide) (by decide) (by decide) (by decide)⟩

/-- C3 (counterexample): with a base key name that itself contains ';'
("a;b;c;d;e"), the composite produced by encode does not split into 5
fields, so decode refuses it (ok = false) and returns the whole composite
instead of the base name — refuting the claim's unrestricted
quantification over base key names. -/
theorem decode_encode_semicolon_cex :
    annGet c3obj traceIDKey ≠ [] ∧ annGet c3obj spanIDKey ≠ [] ∧
    decodeOk (embedTraceIDInNamespacedName "Pod".toList c3obj c3key) = false ∧
    getNameFromNamespacedName (embedTraceIDInNamespacedName "Pod".toList c3obj c3key)
      ≠ c3key.name := by decide

/-- C5: for every key whose name splits on ';' into exactly the five
fields traceId;spanId;callerKind;callerName;realName, StartTrace performs
the underlying read with realName under the original namespace, and the
object resulting from that read gets traceId and spanId stamped into its
trace-id and span-id annotations — whatever trace markers it carried —
before the span is started. -/
theorem startTrace_reads_real_name (key : ObjectKey) (t s k n r : Str)
    (h : splitSemi key.name = [t, s, k, n, r]) (fetched : KObj) :
    startTraceReadKey key = { name := r, ns := key.ns } ∧
    annGet (startTraceStampedObj key fetched) traceIDKey = t ∧
    annGet (startTraceStampedObj key fetched) spanIDKey = s := by
  have hne : traceIDKey ≠ spanIDKey := by decide
  refine ⟨?_, ?_, ?_⟩
  · simp [startTraceReadKey, getNameFromNamespacedName, h]
  · simp only [startTraceStampedObj, overrideTraceIDFromNamespacedName, h]
    simp [annGet, getL, lookupL_setL_ne _ _ _ _ hne, lookupL_setL_self]
  · simp only [startTraceStampedObj, overrideTraceIDFromNamespacedName, h]
    simp [annGet, getL, lookupL_setL_self]

/-- Witness for startTrace_reads_real_name at the spec's end-to-end
scenario key "T1;S1;Pod;pod-A;cm-1" and a fetched object that already
carries older persisted trace markers. -/
theorem startTrace_reads_real_name_witness :
    splitSemi c5key.name =
      ["T1".toList, "S1".toList, "Pod".toList, "pod-A".toList,
       "cm-1".toList] ∧
    (startTraceReadKey c5key = { name := "cm-1".toList, ns := c5key.ns } ∧
      annGet (startTraceStampedObj c5key c5fetched) traceIDKey = "T1".toList ∧
      annGet (startTraceStampedObj c5key c5fetched) spanIDKey = "S1".toList) :=
  ⟨by decide,
    startTrace_reads_real_name c5key "T1".toList "S1".toList "Pod".toList
      "pod-A".toList "cm-1".toList (by decide) c5fetched⟩

/-- C9: for every child object and matching owner reference, the enqueued
request name is the composite traceId;spanId;senderKind;senderName;owner
exactly when the child carries both a non-empty trace-id and a non-empty
span-id annotation; otherwise it is the plain owner name. -/
theorem ownerRequest_name_composite_iff (child : KObj) (childKind refName : Str)
    (nsScoped : Bool) (eventKind : Str) :
    (requestToKey (buildOwnerRequest child childKind refName nsScoped eventKind)).name
      = if annGet child traceIDKey ≠ [] ∧ annGet child spanIDKey ≠ [] then
          compositeName (annGet child traceIDKey) (annGet child spanIDKey)
            childKind child.name refName
        else refName := by
  by_cases h : annGet child traceIDKey ≠ [] ∧ annGet child spanIDKey ≠ []
  · simp [buildOwnerRequest, requestToKey, h]
  · simp only [buildOwnerRequest, requestToKey]
    simp [h]

/-- C10: addTraceIDAnnotation (and hence the object each of Create, Update
and Patch hands to the store) only adds or overwrites the two reserved
annotation keys; every other annotation key keeps exactly the value it had
before the call. -/
theorem addTraceIDAnnot_preserves_other_keys (spanT spanS : Str) (obj : KObj)
    (k : Str) (h1 : k ≠ traceIDKey) (h2 : k ≠ spanIDKey) :
    lookupL ((createSentObj spanT spanS obj).annotations.getD []) k
      = lookupL (obj.annotations.getD []) k ∧
    lookupL ((updateSentObj spanT spanS obj).annotations.getD []) k
      = lookupL (obj.annotations.getD []) k ∧
    lookupL ((patchSentObj spanT spanS obj).annotations.getD []) k
      = lookupL (obj.annotations.getD []) k := by
  have key : lookupL ((addTraceIDAnnot spanT spanS obj).annotations.getD []) k
      = lookupL (obj.annotations.getD []) k := by
    unfold addTraceIDAnnot
    by_cases ht : spanT = [] <;> by_cases hs : spanS = [] <;>
      simp [ht, hs, lookupL_setL_ne _ _ _ _ h1, lookupL_setL_ne _ _ _ _ h2]
  exact ⟨key, key, key⟩

/-- Witness for addTraceIDAnnot_preserves_other_keys at a concrete object
with an ordinary "app" annotation. -/
theorem addTraceIDAnnot_preserves_other_keys_witness :
    ("app".toList ≠ traceIDKey ∧ "app".toList ≠ spanIDKey) ∧
    (lookupL ((createSentObj hex32 hex16 c10obj).annotations.getD [])
        "app".toList
      = lookupL (c10obj.annotations.getD []) "app".toList ∧
    lookupL ((updateSentObj hex32 hex16 c10obj).annotations.getD [])
        "app".toList
      = lookupL (c10obj.annotations.getD []) "app".toList ∧
    lookupL ((patchSentObj hex32 hex16 c10obj).annotations.getD [])
        "app".toList
      = lookupL (c10obj.annotations.getD []) "app".toList) :=
  ⟨⟨by decide, by decide⟩,
    addTraceIDAnnot_preserves_other_keys hex32 hex16 c10obj "app".toList
      (by decide) (by decide)⟩

/-- C1: when the trace-id annotation currently stored on the server
differs from the object's, EndTrace returns the object unchanged with no
error and issues neither the merge patch nor the status patch, leaving the
stored markers untouched. -/
theorem endTrace_skips_on_changed_traceID (spanT spanS : Str) (st obj : KObj)
    (h : annGet st traceIDKey ≠ annGet obj traceIDKey) :
    (endTrace spanT spanS (some st) obj).retObj = obj ∧
    (endTrace spanT spanS (some st) obj).retErrSome = false ∧
    (endTrace spanT spanS (some st) obj).mergePatch = none ∧
    (endTrace spanT spanS (some st) obj).statusPatch = none := by
  obtain ⟨nm, nns, ann, cs⟩ := obj
  cases ann with
  | none => exact ⟨rfl, rfl, rfl, rfl⟩
  | some a =>
    simp only [endTrace, Option.getD_some]
    rw [if_pos h]
    exact ⟨rfl, rfl, rfl, rfl⟩

/-- Witness for endTrace_skips_on_changed_traceID at a stored object whose
trace id moved on to "newer" while the in-memory object still carries
"older". -/
theorem endTrace_skips_on_changed_traceID_witness :
    annGet c1stored traceIDKey ≠ annGet c1obj traceIDKey ∧
    ((endTrace hex32 hex16 (some c1stored) c1obj).retObj = c1obj ∧
      (endTrace hex32 hex16 (some c1stored) c1obj).retErrSome = false ∧
      (endTrace hex32 hex16 (some c1stored) c1obj).mergePatch = none ∧
      (endTrace hex32 hex16 (some c1stored) c1obj).statusPatch = none) :=
  ⟨by decide,
    endTrace_skips_on_changed_traceID hex32 hex16 c1stored c1obj (by decide)⟩

/-- C6: the claim says EndTrace removes the TraceID and SpanID condition
entries and preserves all other conditions; on the conditions list
[Ready, TraceID, SpanID] the code's deleteCondition instead keeps the
TraceID and SpanID entries and drops Ready, and the status patch EndTrace
then submits carries marker conditions (re-stamped by the status writer)
with Ready gone — the removal loop corrupts the conditions list. -/
theorem deleteCondition_drops_other_conditions :
    deleteCondition traceIDCondType [readyCond, traceCond, spanCond]
      = [traceCond, spanCond] ∧
    deleteCondition spanIDCondType [traceCond, spanCond] = [spanCond] ∧
    ((endTrace "t9".toList "s9".toList (some c6obj) c6obj).statusPatch.getD
        []).map Condition.type = [spanIDCondType, traceIDCondType] := by
  decide

/-- C7 (amended): Create, Update, Patch, Get, List, Delete, DeleteAllOf
and the status Update/Patch/Create record the underlying store error on
the span and return it unchanged; StartTrace is the exception — it
discards the store read error entirely (neither recorded nor returned)
and returns only a scheme-resolution error. -/
theorem verbs_propagate_store_errors_amended : ∀ e : Str,
    createVerb none (some e) = { ret := some e, recorded := [e] } ∧
    updateVerb none (some e) = { ret := some e, recorded := [e] } ∧
    patchVerb none (some e) = { ret := some e, recorded := [e] } ∧
    getVerb none (some e) = { ret := some e, recorded := [e] } ∧
    listVerb (some e) = { ret := some e, recorded := [e] } ∧
    deleteVerb none (some e) = { ret := some e, recorded := [e] } ∧
    deleteAllOfVerb none (some e) = { ret := some e, recorded := [e] } ∧
    statusUpdateVerb none (some e) = { ret := some e, recorded := [e] } ∧
    statusPatchVerb none (some e) = { ret := some e, recorded := [e] } ∧
    statusCreateVerb none (some e) = { ret := some e, recorded := [e] } ∧
    startTraceVerb none (some e) = { ret := none, recorded := [] } ∧
    (∀ g : Str, startTraceVerb (some g) (some e)
      = { ret := some g, recorded := [g] }) :=
  fun _ => ⟨rfl, rfl, rfl, rfl, rfl, rfl, rfl, rfl, rfl, rfl, rfl,
    fun _ => rfl⟩

/-- C7 (counterexample): with a successful scheme resolution and a store
read failing with "boom", StartTrace returns no error and records nothing
on the span — the store error is dropped, refuting the claim for the
StartTrace verb. -/
theorem startTraceVerb_drops_store_error_cex :
    startTraceVerb none (some "boom".toList) = { ret := none, recorded := [] } ∧
    (startTraceVerb none (some "boom".toList)).ret ≠ some "boom".toList ∧
    (startTraceVerb none (some "boom".toList)).recorded ≠ ["boom".toList] := by
  decide

/-- C8 (amended): EndTrace is a no-op — object returned unchanged, nil
error, no store read, no patch — exactly when the object's annotation map
is nil; whenever the map is non-nil (even without any trace marker) the
optimistic store read still happens. -/
theorem endTrace_noop_iff_nil_annotations :
    (∀ (spanT spanS : Str) (st : Option KObj) (nm nns : Str)
        (cs : List Condition),
      endTrace spanT spanS st (KObj.mk nm nns none cs)
        = EndTraceOutcome.mk (KObj.mk nm nns none cs) false false none none) ∧
    (∀ (spanT spanS : Str) (st : Option KObj) (nm nns : Str)
        (a : List (Str × Str)) (cs : List Condition),
      (endTrace spanT spanS st (KObj.mk nm nns (some a) cs)).didRead
        = true) := by
  constructor
  · intro spanT spanS st nm nns cs
    rfl
  · intro spanT spanS st nm nns a cs
    simp only [endTrace]
    split <;> rfl

/-- C8 (counterexample): an object with a non-nil annotation map holding
only "foo" — no trace markers at all — still triggers the store read and
both patches, refuting the claim that EndTrace is a no-op for every object
without trace markers. -/
theorem endTrace_nonmarker_annotations_cex :
    annGet c8obj traceIDKey = [] ∧ annGet c8obj spanIDKey = [] ∧
    (endTrace hex32 hex16 (some c8obj) c8obj).didRead = true ∧
    (endTrace hex32 hex16 (some c8obj) c8obj).mergePatch ≠ none ∧
    (endTrace hex32 hex16 (some c8obj) c8obj).statusPatch ≠ none := by
  decide

/-- C4 (amended): span-parent precedence is ambient context, then
condition-form markers, then annotation-form markers, then fresh root —
where a malformed identifier never fails the call but falls directly to
the fresh-root step: a malformed condition-form trace id does NOT fall
through to the annotation form (the annotation form is consulted only
when no condition-form TraceID entry is readable at all). -/
theorem startSpanParent_precedence_amended :
    ∀ (ambient : Option (Str × Str)) (obj : Option KObj),
      (startSpanParent ambient obj).1 = parentSourceSpec ambient obj := by
  intro ambient obj
  cases ambient with
  | some p =>
    obtain ⟨t, s⟩ := p
    rfl
  | none =>
    cases obj with
    | none => rfl
    | some o =>
      simp only [startSpanParent, parentSourceSpec]
      cases hc : getConditionMessage traceIDCondType o.conditions with
      | some tid =>
        by_cases hv : isValidTraceIDHex tid = true
        · simp [hv]
        · simp [hv]
      | none =>
        cases ha : lookupL (o.annotations.getD []) traceIDKey with
        | some tid =>
          by_cases hv : isValidTraceIDHex tid = true
          · simp [hv]
          · simp [hv]
        | none => rfl

/-- C4 (counterexample): an object whose condition-form TraceID message is
the malformed "ZZZ" while its annotation-form trace id is valid hex; the
claim requires the malformed step-2 identifier to fall through to step 3
(annotation form), but the code starts a fresh root span with no remote
parent instead. -/
theorem startSpanParent_malformed_condition_cex :
    getConditionMessage traceIDCondType c4obj.conditions
      = some "ZZZ".toList ∧
    isValidTraceIDHex "ZZZ".toList = false ∧
    lookupL (c4obj.annotations.getD []) traceIDKey = some hex32 ∧
    isValidTraceIDHex hex32 = true ∧
    startSpanParent none (some c4obj) = (ParentSource.root, none) := by
  decide

theorem if_bool_false_true_eq_false_iff (c : Bool) :
    (if c then false else true) = false ↔ c = true := by
  cases c <;> simp

/-- C2 (counterexample): on an update event whose old and new objects are
identical (a fully realistic object with a trace marker, an ordinary
annotation, a spec and a status), the claim requires the predicate to
return false, but the code forwards the event (true): the suppression
branch fires only when a marker/version/generation actually changed. -/
theorem predUpdate_identical_objects_cex :
    predUpdateEvent (some c2ex) (some c2ex) = true ∧
    ¬ claimShouldForward c2ex c2ex := by
  constructor
  · show predUpdate c2ex c2ex = true
    simp [predUpdate]
  · rintro (⟨k, _, _, hne⟩ | hne | hne) <;> exact hne rfl

/-- C2 (amended): the predicate returns false iff at least one of the
trace-id annotation value, the span-id annotation value, the resource
version or the generation changed, while no other annotation changed, the
normalized spec field is unchanged and the normalized status view
(ignoring observedGeneration and the TraceID/SpanID condition entries and
collapsing empty nested structures) is unchanged; in every other case —
including two identical objects — it returns true. -/
theorem predUpdate_suppress_iff_amended (a b : PObj)
    (nda : (a.annotations.map Prod.fst).Nodup)
    (ndb : (b.annotations.map Prod.fst).Nodup) :
    predUpdateEvent (some a) (some b) = false ↔
      ((getL a.annotations traceIDKey ≠ getL b.annotations traceIDKey ∨
        getL a.annotations spanIDKey ≠ getL b.annotations spanIDKey ∨
        a.resourceVersion ≠ b.resourceVersion ∨
        a.generation ≠ b.generation) ∧
       (∀ k, k ≠ traceIDKey → k ≠ spanIDKey →
         lookupL a.annotations k = lookupL b.annotations k) ∧
       normSpecField a = normSpecField b ∧
       statusView a = statusView b) := by
  have hEq := equalExcept_iff a.annotations b.annotations
    [traceIDKey, spanIDKey] nda ndb
  have hmem : ∀ k : Str, k ∉ ([traceIDKey, spanIDKey] : List Str) ↔
      (k ≠ traceIDKey ∧ k ≠ spanIDKey) := by
    intro k
    simp [not_or]
  show predUpdate a b = false ↔ _
  simp only [predUpdate, hasSpecOrStatusChanged]
  rw [if_bool_false_true_eq_false_iff]
  simp only [Bool.and_eq_true, Bool.not_not, Bool.or_eq_true,
    decide_eq_true_eq, Bool.not_eq_true', Bool.or_eq_false_iff,
    decide_eq_false_iff_not, not_not, ne_eq]
  rw [hEq]
  simp only [hmem, and_imp]
  tauto

/-- Witness for predUpdate_suppress_iff_amended at the concrete pair
(c2ex, c2ex2) differing only in trace-id value and resource version. -/
theorem predUpdate_suppress_iff_amended_witness :
    ((c2ex.annotations.map Prod.fst).Nodup ∧
     (c2ex2.annotations.map Prod.fst).Nodup) ∧
    (predUpdateEvent (some c2ex) (some c2ex2) = false ↔
      ((getL c2ex.annotations traceIDKey ≠ getL c2ex2.annotations traceIDKey ∨
        getL c2ex.annotations spanIDKey ≠ getL c2ex2.annotations spanIDKey ∨
        c2ex.resourceVersion ≠ c2ex2.resourceVersion ∨
        c2ex.generation ≠ c2ex2.generation) ∧
       (∀ k, k ≠ traceIDKey → k ≠ spanIDKey →
         lookupL c2ex.annotations k = lookupL c2ex2.annotations k) ∧
       normSpecField c2ex = normSpecField c2ex2 ∧
       statusView c2ex = statusView c2ex2)) :=
  ⟨⟨by decide, by decide⟩,
    predUpdate_suppress_iff_amended c2ex c2ex2 (by decide) (by decide)⟩

end KubetracerGo
